import Mathlib

/-!
Verification development for the annotation-driven authentication subsystem
and the ip denylist source-range subsystem of this repository.

The authentication parser itself is not part of the visible slice (only its
test suite is), so its operations are modelled from the specification,
constrained by the behaviour the tests demand.  The ip denylist parser is
present in the source and is embedded directly; its two external boundaries
(the string-annotation extraction helper and the IP/network parser) are
modelled as explicit inputs.
-/

namespace HelmSpec

/-- Route resource: identified by namespace and name, carrying string
annotations keyed by their full prefixed names. -/
structure Ingress where
  ns : String
  name : String
  anns : List (String × String)
deriving Repr, DecidableEq

/-- Secret entity: a named mapping from string keys to byte-sequence values;
byte sequences are modelled as strings. -/
structure Secret where
  name : String
  data : List (String × String)
deriving Repr, DecidableEq

/-- Modelled from the spec: the Secret Resolver boundary, exposing GetSecret
over a fully qualified identifier and the cross-namespace security policy. -/
structure Resolver where
  getSecret : String → Except String Secret
  allowCrossNamespace : Bool

/-- Error taxonomy of the subsystem, following section 7 of the spec: the
distinguished missing-annotations signal, validation errors naming the
offending key, policy denials with a reason chain, and materialization
errors. -/
inductive AuthError where
  | missingAnns : AuthError
  | validation : String → AuthError
  | locationDenied : String → AuthError
  | materialization : String → AuthError
deriving Repr, DecidableEq

/-- Output value assembled by the Config Assembler.  The materialized file is
modelled by its path together with its full content, which stands for the
content fingerprint used by the defined equality. -/
structure Config where
  type : String
  realm : String
  secretType : String
  file : String
  fileContent : String
  secured : Bool
deriving Repr, DecidableEq

/-- Defined equality on configurations: over type, realm, secret type and the
content fingerprint of the materialized file; the filesystem path is ignored. -/
def configEqual (c₁ c₂ : Config) : Prop :=
  c₁.type = c₂.type ∧ c₁.realm = c₂.realm ∧ c₁.secretType = c₂.secretType ∧
    c₁.fileContent = c₂.fileContent

instance : DecidablePred fun p : Config × Config => configEqual p.1 p.2 := by
  intro p
  unfold configEqual
  infer_instance

instance {ε α : Type} [DecidableEq ε] [DecidableEq α] : DecidableEq (Except ε α) := fun a b =>
  match a, b with
  | .error e1, .error e2 =>
    if h : e1 = e2 then isTrue (by rw [h]) else isFalse (by intro hc; cases hc; exact h rfl)
  | .ok v1, .ok v2 =>
    if h : v1 = v2 then isTrue (by rw [h]) else isFalse (by intro hc; cases hc; exact h rfl)
  | .error _, .ok _ => isFalse (by intro hc; cases hc)
  | .ok _, .error _ => isFalse (by intro hc; cases hc)

/-- Fixed group prefix under which the four recognized keys live. -/
def annPrefix : String := "nginx.ingress.kubernetes.io/"

/-- GetAnnotationWithPrefix from the parser package: prepends the group prefix. -/
def GetAnnotationWithPrefix (k : String) : String := annPrefix ++ k

def authTypeKey : String := "auth-type"

def authSecretKey : String := "auth-secret"

def authSecretTypeKey : String := "auth-secret-type"

def authRealmKey : String := "auth-realm"

/-- Look up a recognized key (stored under its full prefixed name) on a route. -/
def lookupAnn (ing : Ingress) (k : String) : Option String :=
  ing.anns.lookup (GetAnnotationWithPrefix k)

/-- A route requests authentication iff one of the four recognized keys is
present. -/
def hasAuthAnns (ing : Ingress) : Bool :=
  (lookupAnn ing authTypeKey).isSome || (lookupAnn ing authSecretKey).isSome ||
    (lookupAnn ing authSecretTypeKey).isSome || (lookupAnn ing authRealmKey).isSome

/-- Characters that are rejected inside a realm because they enable directive
or block injection in generated proxy configuration. -/
def badRealmChar (c : Char) : Bool :=
  c = '\x22' || c = ';' || c = '\x7b' || c = '\x7d'

/-- A realm is valid iff it contains none of the rejected characters. -/
def realmValid (r : String) : Bool := !(r.data.any badRealmChar)

/-- Modelled from the spec: a secret reference is well formed iff it contains
no disallowed separator (a semicolon) and at most one slash. -/
def secretRefValid (s : String) : Bool :=
  !(s.data.any (fun c => c = ';')) && decide ((s.data.count '/') ≤ 1)

/-- Split a character list at its first slash, keeping the remainder. -/
def splitAtSlash : List Char → List Char × Option (List Char)
  | [] => ([], none)
  | c :: rest =>
    if c = '/' then ([], some rest)
    else
      let r := splitAtSlash rest
      (c :: r.1, r.2)

/-- Modelled from the spec: split a reference of shape namespace/name, the
namespace defaulting to the namespace of the owning route when omitted. -/
def splitSecretRef (routeNs s : String) : String × String :=
  match splitAtSlash s.data with
  | (n, none) => (routeNs, String.mk n)
  | (nsp, some n) => (String.mk nsp, String.mk n)

/-- Modelled from the spec: auth-file materialization requires the single data
entry under key auth and reproduces its byte value verbatim; a missing auth
key is a materialization error.  The produced file is modelled by the
returned content. -/
def dumpSecretAuthFile (secret : Secret) : Except AuthError String :=
  match secret.data.lookup "auth" with
  | none => .error (.materialization "secret does not contain the expected key")
  | some v => .ok v

/-- One synthesized credential line of an auth-map file. -/
def authMapLine (p : String × String) : String := p.1 ++ ":" ++ p.2 ++ "\n"

/-- Byte-wise lexicographic comparison of character lists: the order used by
the string sort of the standard library of the implementation language. -/
def lexLeChars : List Char → List Char → Bool
  | [], _ => true
  | _ :: _, [] => false
  | a :: as, b :: bs =>
    if a < b then true
    else if b < a then false
    else lexLeChars as bs

theorem lexLeChars_total : ∀ a b, lexLeChars a b = true ∨ lexLeChars b a = true
  | [], _ => Or.inl rfl
  | _ :: _, [] => Or.inr rfl
  | a :: as, b :: bs => by
    by_cases hab : a < b
    · left
      simp [lexLeChars, hab]
    · by_cases hba : b < a
      · right
        simp [lexLeChars, hba, asymm hba]
      · rcases lexLeChars_total as bs with h | h
        · left
          simp [lexLeChars, hab, hba, h]
        · right
          simp [lexLeChars, hab, hba, h]

theorem lexLeChars_trans : ∀ a b c, lexLeChars a b = true → lexLeChars b c = true →
    lexLeChars a c = true
  | [], _, _, _, _ => rfl
  | _ :: _, [], _, h1, _ => by simp [lexLeChars] at h1
  | _ :: _, _ :: _, [], _, h2 => by simp [lexLeChars] at h2
  | a :: as, b :: bs, c :: cs, h1, h2 => by
    by_cases hab : a < b
    · by_cases hbc : b < c
      · simp [lexLeChars, lt_trans hab hbc]
      · by_cases hcb : c < b
        · simp [lexLeChars, hbc, hcb] at h2
        · have hbceq : b = c := le_antisymm (le_of_not_lt hcb) (le_of_not_lt hbc)
          simp [lexLeChars, hbceq ▸ hab]
    · by_cases hba : b < a
      · simp [lexLeChars, hab, hba] at h1
      · have habeq : a = b := le_antisymm (le_of_not_lt hba) (le_of_not_lt hab)
        simp only [lexLeChars, hab, hba, if_false, if_neg] at h1
        by_cases hbc : b < c
        · simp [lexLeChars, habeq ▸ hbc]
        · by_cases hcb : c < b
          · simp [lexLeChars, hbc, hcb] at h2
          · have hbceq : b = c := le_antisymm (le_of_not_lt hcb) (le_of_not_lt hbc)
            rw [lexLeChars] at h2
            rw [if_neg hbc, if_neg hcb] at h2
            have hac : ¬ a < c := hbceq ▸ habeq ▸ hab
            have hca : ¬ c < a := hbceq ▸ habeq ▸ hba
            rw [lexLeChars, if_neg hac, if_neg hca]
            exact lexLeChars_trans as bs cs h1 h2

theorem lexLeChars_antisymm : ∀ a b, lexLeChars a b = true → lexLeChars b a = true → a = b
  | [], [], _, _ => rfl
  | [], _ :: _, _, h2 => by simp [lexLeChars] at h2
  | _ :: _, [], h1, _ => by simp [lexLeChars] at h1
  | a :: as, b :: bs, h1, h2 => by
    by_cases hab : a < b
    · simp [lexLeChars, hab, asymm hab] at h2
    · by_cases hba : b < a
      · simp [lexLeChars, hab, hba] at h1
      · have habeq : a = b := le_antisymm (le_of_not_lt hba) (le_of_not_lt hab)
        rw [lexLeChars, if_neg hab, if_neg hba] at h1
        rw [lexLeChars, if_neg hba, if_neg hab] at h2
        rw [habeq, lexLeChars_antisymm as bs h1 h2]

/-- Lexicographic order on strings through their character lists. -/
def strLe (a b : String) : Prop := lexLeChars a.data b.data = true

instance : DecidableRel strLe := fun a b => by
  unfold strLe
  infer_instance

theorem strLe_total (a b : String) : strLe a b ∨ strLe b a :=
  lexLeChars_total a.data b.data

theorem strLe_trans {a b c : String} (h1 : strLe a b) (h2 : strLe b c) : strLe a c :=
  lexLeChars_trans a.data b.data c.data h1 h2

theorem strLe_antisymm {a b : String} (h1 : strLe a b) (h2 : strLe b a) : a = b := by
  cases a with
  | mk da =>
    cases b with
    | mk db =>
      rw [lexLeChars_antisymm da db h1 h2]

instance : IsTotal String strLe := ⟨strLe_total⟩

instance : IsTrans String strLe := ⟨fun _ _ _ => strLe_trans⟩

instance : IsAntisymm String strLe := ⟨fun _ _ => strLe_antisymm⟩

/-- Ordering of auth-map entries: by username, ties broken by the credential
value so that the order is total and antisymmetric. -/
def entryLe (a b : String × String) : Prop :=
  if a.1 = b.1 then strLe a.2 b.2 else strLe a.1 b.1

instance : DecidableRel entryLe := fun a b => by
  unfold entryLe
  infer_instance

instance : IsTotal (String × String) entryLe := by
  constructor
  intro a b
  by_cases h : a.1 = b.1
  · rcases strLe_total a.2 b.2 with h2 | h2
    · exact Or.inl (by rw [entryLe, if_pos h]; exact h2)
    · exact Or.inr (by rw [entryLe, if_pos h.symm]; exact h2)
  · rcases strLe_total a.1 b.1 with h2 | h2
    · exact Or.inl (by rw [entryLe, if_neg h]; exact h2)
    · exact Or.inr (by rw [entryLe, if_neg (fun hc => h hc.symm)]; exact h2)

instance : IsTrans (String × String) entryLe := by
  constructor
  intro a b c hab hbc
  unfold entryLe at *
  by_cases h1 : a.1 = b.1 <;> by_cases h2 : b.1 = c.1
  · rw [if_pos h1] at hab
    rw [if_pos h2] at hbc
    rw [if_pos (h1.trans h2)]
    exact strLe_trans hab hbc
  · rw [if_pos h1] at hab
    rw [if_neg h2] at hbc
    rw [if_neg (fun hc => h2 (h1.symm.trans hc)), h1]
    exact hbc
  · rw [if_neg h1] at hab
    rw [if_pos h2] at hbc
    rw [if_neg (fun hc => h1 (hc.trans h2.symm)), ← h2]
    exact hab
  · rw [if_neg h1] at hab
    rw [if_neg h2] at hbc
    by_cases h3 : a.1 = c.1
    · exact absurd (strLe_antisymm hab (h3 ▸ hbc)) h1
    · rw [if_neg h3]
      exact strLe_trans hab hbc

instance : IsAntisymm (String × String) entryLe := by
  constructor
  intro a b hab hba
  unfold entryLe at *
  by_cases h : a.1 = b.1
  · rw [if_pos h] at hab
    rw [if_pos h.symm] at hba
    exact Prod.ext h (strLe_antisymm hab hba)
  · rw [if_neg h] at hab
    rw [if_neg (fun hc => h hc.symm)] at hba
    exact absurd (strLe_antisymm hab hba) h

/-- Modelled from the spec: auth-map materialization synthesizes one
username:hash line per data entry, lines ordered by sorted username; an empty
mapping yields an empty file and is not an error.  The produced file is
modelled by the returned content. -/
def dumpSecretAuthMap (secret : Secret) : Except AuthError String :=
  .ok (String.join ((secret.data.insertionSort entryLe).map authMapLine))

/-- Dispatch of the Credential Materializer over the validated secret type. -/
def materialize (secretType : String) (secret : Secret) : Except AuthError String :=
  if secretType = "auth-file" then dumpSecretAuthFile secret else dumpSecretAuthMap secret

/-- Intermediate result of parsing before the output path is attached. -/
structure Core where
  type : String
  realm : String
  secretType : String
  secretName : String
  content : String
deriving Repr, DecidableEq

/-- Modelled from the spec, sections 4.1 to 4.3: extraction and validation in
the order given there, then the namespace policy guard, then resolution and
materialization. -/
def parseCore (r : Resolver) (ing : Ingress) : Except AuthError Core :=
  if hasAuthAnns ing then
    match lookupAnn ing authTypeKey with
    | none => .error (.validation (GetAnnotationWithPrefix authTypeKey))
    | some at_ =>
      if at_ = "basic" ∨ at_ = "digest" then
        let realm := (lookupAnn ing authRealmKey).getD ""
        if realmValid realm then
          match lookupAnn ing authSecretKey with
          | none =>
            .error (.locationDenied
              "error reading secret name from annotation: ingress rule without annotations")
          | some s =>
            if secretRefValid s then
              let ref := splitSecretRef ing.ns s
              let st := (lookupAnn ing authSecretTypeKey).getD "auth-file"
              if st = "auth-file" ∨ st = "auth-map" then
                if ref.1 ≠ ing.ns ∧ ¬ r.allowCrossNamespace then
                  .error (.locationDenied "cross namespace usage of secrets is not allowed")
                else
                  match r.getSecret (ref.1 ++ "/" ++ ref.2) with
                  | .error e =>
                    .error (.locationDenied
                      ("unexpected error reading secret " ++ ref.1 ++ "/" ++ ref.2 ++ ": " ++ e))
                  | .ok secret =>
                    match materialize st secret with
                    | .error e => .error e
                    | .ok content =>
                      .ok ⟨at_, realm, st, ref.2, content⟩
              else .error (.validation (GetAnnotationWithPrefix authSecretTypeKey))
            else
              .error (.locationDenied
                ("error reading secret name from annotation: annotation " ++
                  GetAnnotationWithPrefix authSecretKey ++ " contains invalid value"))
        else .error (.validation (GetAnnotationWithPrefix authRealmKey))
      else .error (.validation (GetAnnotationWithPrefix authTypeKey))
  else .error .missingAnns

/-- Deterministic output path per route identity and secret identity, under
the caller-supplied directory. -/
def passFileName (dir : String) (ing : Ingress) (secretName : String) : String :=
  dir ++ "/" ++ ing.ns ++ "-" ++ ing.name ++ "-" ++ secretName ++ ".passwd"

/-- Config Assembler: combines validated fields and the materialization
outcome; Secured is true exactly on a non-error materialization. -/
def mkConfig (dir : String) (ing : Ingress) (o : Core) : Config :=
  ⟨o.type, o.realm, o.secretType, passFileName dir ing o.secretName, o.content, true⟩

/-- Modelled from the spec: Parse, the whole subsystem, as built by NewParser
over a caller-supplied directory and a resolver. -/
def Parse (dir : String) (r : Resolver) (ing : Ingress) : Except AuthError Config :=
  (parseCore r ing).map (mkConfig dir ing)

/-- Sorted string list, mirroring sort.Strings (lexicographic ascending). -/
def sortStrings (l : List String) : List String :=
  l.insertionSort strLe

namespace IpDenylist

/-- SourceRange returned by the denylist parser: the CIDR list. -/
structure SourceRange where
  CIDR : List String
deriving Repr, DecidableEq

/-- Outcome of the extraction boundary for the denylist key: either the
distinguished missing-annotations signal, some other extraction or validation
failure, or the raw string value. -/
inductive AnnResult where
  | missingAnns : AnnResult
  | otherErr : String → AnnResult
  | ok : String → AnnResult
deriving Repr, DecidableEq

/-- Outcome of the IP and network parsing boundary, net.ParseIPNets: the keys
of the parsed networks map, the keys of the parsed addresses map, and an
optional error. -/
structure IPNetsResult where
  ipnets : List String
  ips : List String
  err : Option String
deriving Repr, DecidableEq

/-- Embedding of Parse of the ipdenylist package.  The default backend
denylist source range is copied and sorted up front; a missing annotation
returns it with no error, any other extraction failure returns it under a
location-denied error; otherwise the comma-separated value goes through the
IP parsing boundary, a parse error with no recovered addresses is denied, and
the surviving network and address keys are returned sorted.  The Go level
pair of a possibly nil pointer and an error is modelled as a pair of an
optional SourceRange and an optional error reason. -/
def Parse (defaultDeny : List String) (getAnn : AnnResult)
    (parseIPNets : List String → IPNetsResult) :
    Option SourceRange × Option String :=
  let defaultDenylistSourceRange := sortStrings defaultDeny
  match getAnn with
  | .missingAnns => (some ⟨defaultDenylistSourceRange⟩, none)
  | .otherErr e => (some ⟨defaultDenylistSourceRange⟩, some e)
  | .ok val =>
    let res := parseIPNets (val.splitOn ",")
    if res.err.isSome && res.ips.isEmpty then
      (some ⟨defaultDenylistSourceRange⟩,
        some "the annotation does not contain a valid IP address or network")
    else
      (some ⟨sortStrings (res.ipnets ++ res.ips)⟩, none)

/-- Modelled from the spec: StringElementsMatch of the sets utility package,
true iff the two slices hold the same elements irrespective of order. -/
def StringElementsMatch (a b : List String) : Bool :=
  decide (a.Perm b)

/-- Pointers to SourceRange values: an optional address into a heap, so that
pointer identity and structural equality stay distinct. -/
def Equal (heap : Nat → SourceRange) (sr1 sr2 : Option Nat) : Bool :=
  if sr1 = sr2 then true
  else
    match sr1, sr2 with
    | some a1, some a2 => StringElementsMatch (heap a1).CIDR (heap a2).CIDR
    | _, _ => false

end IpDenylist

/-! Concrete fixtures mirroring the test suite in the repository. -/

/-- GetSecret of the mock resolver of the test suite: only default/demo-secret
and otherns/demo-secret exist, both holding one pre-formatted credential blob
under key auth. -/
def mockGetSecret : String → Except String Secret := fun nm =>
  if nm = "default/demo-secret" ∨ nm = "otherns/demo-secret" then
    .ok ⟨"demo-secret", [("auth", "foo:$apr1$OFG3Xybp$ckL0FHDAkoXYIlH9.cysT0")]⟩
  else .error ("there is no secret with name " ++ nm)

/-- Mock resolver with the default policy (cross-namespace use denied). -/
def mockResolver : Resolver := ⟨mockGetSecret, false⟩

/-- Mock resolver with cross-namespace use allowed. -/
def mockResolverAllow : Resolver := ⟨mockGetSecret, true⟩

/-- The ingress of buildIngress in the test suite, with a chosen annotation
list attached. -/
def testIngress (l : List (String × String)) : Ingress := ⟨"default", "foo", l⟩

/-! Helper lemmas shared by the claim theorems. -/

theorem sortStrings_perm (l : List String) : (sortStrings l).Perm l :=
  List.perm_insertionSort strLe l

theorem sortStrings_sorted (l : List String) : List.Sorted strLe (sortStrings l) :=
  List.sorted_insertionSort strLe l

theorem hasAuthAnns_of_type {ing : Ingress} {v : String}
    (h : lookupAnn ing authTypeKey = some v) : hasAuthAnns ing = true := by
  unfold hasAuthAnns
  rw [h]
  rfl

/-! Claim theorems. -/

/-- C1, counterexample: the route of the test suite without any auth
annotation.  Parse does return an error value there, namely the distinguished
missing-annotations signal, exactly as the test TestIngressWithoutAuth
demands; so the part of the claim stating that no error is returned is false
at this input. -/
theorem c1_counterexample :
    Parse "/tmp" mockResolver (testIngress []) = .error .missingAnns ∧
    (Parse "/tmp" mockResolver (testIngress [])).isOk = false := by
  constructor <;> decide

/-- C1, amended: for every route on which none of the four recognized auth
keys is present, Parse yields the distinguished missing-annotations signal;
the signal is delivered as the distinguished error value, which callers must
treat as authentication not requested rather than as a failure. -/
theorem c1_no_auth_anns (dir : String) (r : Resolver) (ing : Ingress)
    (h : hasAuthAnns ing = false) : Parse dir r ing = .error .missingAnns := by
  simp [Parse, parseCore, h, Except.map]

/-- C1, witness: the amended theorem applied to the annotation-free route of
the test suite. -/
theorem c1_no_auth_anns_witness :
    hasAuthAnns (testIngress []) = false ∧
    Parse "/run" mockResolver (testIngress []) = .error .missingAnns :=
  ⟨by decide, c1_no_auth_anns "/run" mockResolver (testIngress []) (by decide)⟩

/-- C5: for every route carrying an auth-type annotation whose value is
neither basic nor digest, Parse fails with a validation error naming the
auth-type key. -/
theorem c5_bad_auth_type (dir : String) (r : Resolver) (ing : Ingress) (v : String)
    (h1 : lookupAnn ing authTypeKey = some v)
    (h2 : v ≠ "basic") (h3 : v ≠ "digest") :
    Parse dir r ing = .error (.validation "nginx.ingress.kubernetes.io/auth-type") := by
  have hh := hasAuthAnns_of_type h1
  unfold Parse parseCore
  rw [hh, h1]
  simp [h2, h3, Except.map, GetAnnotationWithPrefix, annPrefix, authTypeKey]

/-- C5, witness: the scenario of TestIngressAuthBadAuthType, with value
invalid. -/
theorem c5_bad_auth_type_witness :
    lookupAnn (testIngress [(GetAnnotationWithPrefix authTypeKey, "invalid")]) authTypeKey =
      some "invalid" ∧
    Parse "/tmp" mockResolver (testIngress [(GetAnnotationWithPrefix authTypeKey, "invalid")]) =
      .error (.validation "nginx.ingress.kubernetes.io/auth-type") :=
  ⟨by decide,
    c5_bad_auth_type "/tmp" mockResolver
      (testIngress [(GetAnnotationWithPrefix authTypeKey, "invalid")]) "invalid"
      (by decide) (by decide) (by decide)⟩

/-- Route with an invalid auth-type value and a realm carrying a rejected
character at the same time. -/
def c6Ingress : Ingress :=
  testIngress
    [(GetAnnotationWithPrefix authTypeKey, "invalid"),
      (GetAnnotationWithPrefix authRealmKey, "bad;realm"),
      (GetAnnotationWithPrefix authSecretKey, "demo-secret")]

/-- C6, counterexample: when the auth-type value is itself invalid, auth-type
validation fires first, so a route with a rejected realm character does not
always fail naming the auth-realm key; at this input the error names
auth-type instead. -/
theorem c6_counterexample :
    Parse "/tmp" mockResolver c6Ingress =
      .error (.validation "nginx.ingress.kubernetes.io/auth-type") ∧
    Parse "/tmp" mockResolver c6Ingress ≠
      .error (.validation "nginx.ingress.kubernetes.io/auth-realm") := by
  constructor <;> decide

/-- C6, amended: for every route whose auth-realm annotation value contains
one of the rejected characters, provided the auth-type annotation is present
with a valid value, Parse fails with a validation error naming the auth-realm
key, regardless of the remaining annotations. -/
theorem c6_bad_realm (dir : String) (r : Resolver) (ing : Ingress) (v rv : String)
    (h1 : lookupAnn ing authTypeKey = some v)
    (h2 : v = "basic" ∨ v = "digest")
    (h3 : lookupAnn ing authRealmKey = some rv)
    (h4 : realmValid rv = false) :
    Parse dir r ing = .error (.validation "nginx.ingress.kubernetes.io/auth-realm") := by
  have hh := hasAuthAnns_of_type h1
  unfold Parse parseCore
  rw [hh, h1, h3]
  simp [h2, h4, Except.map, GetAnnotationWithPrefix, annPrefix, authRealmKey]

/-- C6, witness: the scenario of TestIngressInvalidRealm. -/
theorem c6_bad_realm_witness :
    realmValid "bad;realm" = false ∧
    Parse "/tmp" mockResolver
      (testIngress
        [(GetAnnotationWithPrefix authTypeKey, "basic"),
          (GetAnnotationWithPrefix authRealmKey, "bad;realm"),
          (GetAnnotationWithPrefix authSecretKey, "demo-secret")]) =
      .error (.validation "nginx.ingress.kubernetes.io/auth-realm") :=
  ⟨by decide,
    c6_bad_realm "/tmp" mockResolver
      (testIngress
        [(GetAnnotationWithPrefix authTypeKey, "basic"),
          (GetAnnotationWithPrefix authRealmKey, "bad;realm"),
          (GetAnnotationWithPrefix authSecretKey, "demo-secret")])
      "basic" "bad;realm" (by decide) (by decide) (by decide) (by decide)⟩

/-- C2: for every route whose auth annotations are otherwise well formed and
whose parsed secret reference names a namespace different from the one of the
route, Parse under a policy denying cross-namespace use fails with the
policy-denial reason demanded by the spec; the statement holds for every
GetSecret function whatsoever, which is the deny-before-lookup property: the
result never depends on the resolver lookup. -/
theorem c2_cross_namespace_denied (dir : String) (gs : String → Except String Secret)
    (ing : Ingress) (v s : String)
    (h1 : lookupAnn ing authTypeKey = some v)
    (h2 : v = "basic" ∨ v = "digest")
    (h3 : realmValid ((lookupAnn ing authRealmKey).getD "") = true)
    (h4 : lookupAnn ing authSecretKey = some s)
    (h5 : secretRefValid s = true)
    (h6 : (lookupAnn ing authSecretTypeKey).getD "auth-file" = "auth-file" ∨
      (lookupAnn ing authSecretTypeKey).getD "auth-file" = "auth-map")
    (h7 : (splitSecretRef ing.ns s).1 ≠ ing.ns) :
    Parse dir ⟨gs, false⟩ ing =
      .error (.locationDenied "cross namespace usage of secrets is not allowed") := by
  have hh := hasAuthAnns_of_type h1
  unfold Parse parseCore
  rw [hh, h1, h4]
  simp [h2, h3, h5, h6, h7, Except.map]

/-- C2, witness: the scenario of TestIngressInvalidDifferentNamespace, with a
GetSecret function that would reject every lookup, showing the denial happens
before any lookup. -/
theorem c2_cross_namespace_denied_witness :
    (splitSecretRef "default" "otherns/demo-secret").1 ≠ "default" ∧
    Parse "/tmp" ⟨fun _ => .error "never looked up", false⟩
      (testIngress
        [(GetAnnotationWithPrefix authTypeKey, "basic"),
          (GetAnnotationWithPrefix authSecretKey, "otherns/demo-secret")]) =
      .error (.locationDenied "cross namespace usage of secrets is not allowed") :=
  ⟨by decide,
    c2_cross_namespace_denied "/tmp" (fun _ => .error "never looked up")
      (testIngress
        [(GetAnnotationWithPrefix authTypeKey, "basic"),
          (GetAnnotationWithPrefix authSecretKey, "otherns/demo-secret")])
      "basic" "otherns/demo-secret"
      (by decide) (by decide) (by decide) (by decide) (by decide) (by decide) (by decide)⟩

/-- C7: for every route whose auth annotations are well formed and whose
secret reference names a different namespace, when the policy allows
cross-namespace use and the referenced secret exists with data the
materializer accepts, Parse returns no error and the resulting configuration
is secured. -/
theorem c7_cross_namespace_allowed (dir : String) (r : Resolver) (ing : Ingress)
    (v s content : String) (sec : Secret)
    (h1 : lookupAnn ing authTypeKey = some v)
    (h2 : v = "basic" ∨ v = "digest")
    (h3 : realmValid ((lookupAnn ing authRealmKey).getD "") = true)
    (h4 : lookupAnn ing authSecretKey = some s)
    (h5 : secretRefValid s = true)
    (h6 : (lookupAnn ing authSecretTypeKey).getD "auth-file" = "auth-file" ∨
      (lookupAnn ing authSecretTypeKey).getD "auth-file" = "auth-map")
    (_h7 : (splitSecretRef ing.ns s).1 ≠ ing.ns)
    (h8 : r.allowCrossNamespace = true)
    (h9 : r.getSecret ((splitSecretRef ing.ns s).1 ++ "/" ++ (splitSecretRef ing.ns s).2) =
      .ok sec)
    (h10 : materialize ((lookupAnn ing authSecretTypeKey).getD "auth-file") sec = .ok content) :
    ∃ cfg, Parse dir r ing = .ok cfg ∧ cfg.secured = true := by
  have hh := hasAuthAnns_of_type h1
  refine ⟨mkConfig dir ing
    ⟨v, (lookupAnn ing authRealmKey).getD "",
      (lookupAnn ing authSecretTypeKey).getD "auth-file",
      (splitSecretRef ing.ns s).2, content⟩, ?_, rfl⟩
  unfold Parse parseCore
  rw [hh, h1, h4]
  simp [h2, h3, h5, h6, h8, h9, h10, Except.map]

/-- C7, witness: the scenario of TestIngressInvalidDifferentNamespaceAllowed. -/
theorem c7_cross_namespace_allowed_witness :
    mockResolverAllow.allowCrossNamespace = true ∧
    (∃ cfg, Parse "/tmp" mockResolverAllow
      (testIngress
        [(GetAnnotationWithPrefix authTypeKey, "basic"),
          (GetAnnotationWithPrefix authSecretKey, "otherns/demo-secret")]) =
      .ok cfg ∧ cfg.secured = true) :=
  ⟨rfl,
    c7_cross_namespace_allowed "/tmp" mockResolverAllow
      (testIngress
        [(GetAnnotationWithPrefix authTypeKey, "basic"),
          (GetAnnotationWithPrefix authSecretKey, "otherns/demo-secret")])
      "basic" "otherns/demo-secret" "foo:$apr1$OFG3Xybp$ckL0FHDAkoXYIlH9.cysT0"
      ⟨"demo-secret", [("auth", "foo:$apr1$OFG3Xybp$ckL0FHDAkoXYIlH9.cysT0")]⟩
      (by decide) (by decide) (by decide) (by decide) (by decide) (by decide) (by decide)
      (by decide) (by decide) (by decide)⟩

/-- C3: materialization of a resolved secret under type auth-file.  If the
data mapping has no entry under key auth, the materializer fails with the
materialization error of the spec, so the single required credential entry is
the one under key auth; when the auth entry is present its byte value is
reproduced verbatim as the produced file content and materialization
succeeds. -/
theorem c3_auth_file (sec : Secret) :
    (sec.data.lookup "auth" = none →
      dumpSecretAuthFile sec =
        .error (.materialization "secret does not contain the expected key")) ∧
    (∀ v, sec.data.lookup "auth" = some v → dumpSecretAuthFile sec = .ok v) := by
  constructor
  · intro h
    unfold dumpSecretAuthFile
    rw [h]
  · intro v h
    unfold dumpSecretAuthFile
    rw [h]

/-- C3, witness: the demo secret of the test suite succeeds byte for byte,
and the same secret with its data removed fails, as in TestDumpSecretAuthFile. -/
theorem c3_auth_file_witness :
    dumpSecretAuthFile ⟨"demo-secret", [("auth", "foo:$apr1$OFG3Xybp$ckL0FHDAkoXYIlH9.cysT0")]⟩ =
      .ok "foo:$apr1$OFG3Xybp$ckL0FHDAkoXYIlH9.cysT0" ∧
    dumpSecretAuthFile ⟨"demo-secret", []⟩ =
      .error (.materialization "secret does not contain the expected key") :=
  ⟨(c3_auth_file ⟨"demo-secret", [("auth", "foo:$apr1$OFG3Xybp$ckL0FHDAkoXYIlH9.cysT0")]⟩).2
      "foo:$apr1$OFG3Xybp$ckL0FHDAkoXYIlH9.cysT0" (by decide),
    (c3_auth_file ⟨"demo-secret", []⟩).1 (by decide)⟩

/-- C4: materialization of a resolved secret under type auth-map.  The
produced file consists of exactly one username:hash line per entry of the
data mapping, the lines ordered by sorted username, so the output is
invariant under any permutation of the input entries; the empty mapping is
accepted and yields the empty file. -/
theorem c4_auth_map (nm nm2 : String) (l1 l2 : List (String × String))
    (h : l1.Perm l2) :
    dumpSecretAuthMap ⟨nm, l1⟩ = dumpSecretAuthMap ⟨nm2, l2⟩ ∧
    (∃ es, es.Perm l1 ∧ List.Sorted entryLe es ∧
      dumpSecretAuthMap ⟨nm, l1⟩ = .ok (String.join (es.map authMapLine))) ∧
    dumpSecretAuthMap ⟨nm, []⟩ = .ok "" := by
  refine ⟨?_, ⟨l1.insertionSort entryLe, List.perm_insertionSort entryLe l1,
    List.sorted_insertionSort entryLe l1, rfl⟩, rfl⟩
  unfold dumpSecretAuthMap
  have hs : l1.insertionSort entryLe = l2.insertionSort entryLe :=
    List.eq_of_perm_of_sorted
      ((List.perm_insertionSort entryLe l1).trans
        (h.trans (List.perm_insertionSort entryLe l2).symm))
      (List.sorted_insertionSort entryLe l1) (List.sorted_insertionSort entryLe l2)
  rw [hs]

/-- C4, witness: the two-entry mapping of the spec example, presented in
reversed order, still materializes to the sorted two-line file. -/
theorem c4_auth_map_witness :
    dumpSecretAuthMap ⟨"s", [("bob", "h2"), ("alice", "h1")]⟩ =
      dumpSecretAuthMap ⟨"t", [("alice", "h1"), ("bob", "h2")]⟩ ∧
    (∃ es, es.Perm [("bob", "h2"), ("alice", "h1")] ∧ List.Sorted entryLe es ∧
      dumpSecretAuthMap ⟨"s", [("bob", "h2"), ("alice", "h1")]⟩ =
        .ok (String.join (es.map authMapLine))) ∧
    dumpSecretAuthMap ⟨"s", []⟩ = .ok "" :=
  c4_auth_map "s" "t" [("bob", "h2"), ("alice", "h1")] [("alice", "h1"), ("bob", "h2")]
    (List.Perm.swap ("alice", "h1") ("bob", "h2") [])

/-- C8: Parse is a pure function, so a repeated invocation on identical
inputs returns the identical configuration with identical file content; and
two invocations differing only in the caller-supplied output directory agree
on the content fingerprint and are equal under the defined configuration
equality, which ignores the filesystem path. -/
theorem c8_deterministic (dir1 dir2 : String) (r : Resolver) (ing : Ingress)
    (c1 c2 : Config)
    (h1 : Parse dir1 r ing = .ok c1) (h2 : Parse dir2 r ing = .ok c2) :
    c1.fileContent = c2.fileContent ∧ configEqual c1 c2 ∧ (dir1 = dir2 → c1 = c2) := by
  unfold Parse at h1 h2
  cases hpc : parseCore r ing with
  | error e =>
    rw [hpc] at h1
    simp [Except.map] at h1
  | ok o =>
    rw [hpc] at h1 h2
    simp only [Except.map, Except.ok.injEq] at h1 h2
    subst h1
    subst h2
    refine ⟨rfl, ⟨rfl, rfl, rfl, rfl⟩, ?_⟩
    intro hd
    rw [hd]

/-- C8, witness: the successful scenario of TestIngressAuth, run twice under
one directory and once under another. -/
theorem c8_deterministic_witness :
    Parse "/a" mockResolver
      (testIngress
        [(GetAnnotationWithPrefix authTypeKey, "basic"),
          (GetAnnotationWithPrefix authSecretKey, "demo-secret"),
          (GetAnnotationWithPrefix authRealmKey, "-realm-")]) =
      .ok ⟨"basic", "-realm-", "auth-file", "/a/default-foo-demo-secret.passwd",
        "foo:$apr1$OFG3Xybp$ckL0FHDAkoXYIlH9.cysT0", true⟩ ∧
    ((⟨"basic", "-realm-", "auth-file", "/a/default-foo-demo-secret.passwd",
        "foo:$apr1$OFG3Xybp$ckL0FHDAkoXYIlH9.cysT0", true⟩ : Config).fileContent =
      (⟨"basic", "-realm-", "auth-file", "/b/default-foo-demo-secret.passwd",
        "foo:$apr1$OFG3Xybp$ckL0FHDAkoXYIlH9.cysT0", true⟩ : Config).fileContent ∧
      configEqual
        ⟨"basic", "-realm-", "auth-file", "/a/default-foo-demo-secret.passwd",
          "foo:$apr1$OFG3Xybp$ckL0FHDAkoXYIlH9.cysT0", true⟩
        ⟨"basic", "-realm-", "auth-file", "/b/default-foo-demo-secret.passwd",
          "foo:$apr1$OFG3Xybp$ckL0FHDAkoXYIlH9.cysT0", true⟩ ∧
      ("/a" = "/b" →
        (⟨"basic", "-realm-", "auth-file", "/a/default-foo-demo-secret.passwd",
          "foo:$apr1$OFG3Xybp$ckL0FHDAkoXYIlH9.cysT0", true⟩ : Config) =
        ⟨"basic", "-realm-", "auth-file", "/b/default-foo-demo-secret.passwd",
          "foo:$apr1$OFG3Xybp$ckL0FHDAkoXYIlH9.cysT0", true⟩)) :=
  ⟨by decide,
    c8_deterministic "/a" "/b" mockResolver
      (testIngress
        [(GetAnnotationWithPrefix authTypeKey, "basic"),
          (GetAnnotationWithPrefix authSecretKey, "demo-secret"),
          (GetAnnotationWithPrefix authRealmKey, "-realm-")])
      ⟨"basic", "-realm-", "auth-file", "/a/default-foo-demo-secret.passwd",
        "foo:$apr1$OFG3Xybp$ckL0FHDAkoXYIlH9.cysT0", true⟩
      ⟨"basic", "-realm-", "auth-file", "/b/default-foo-demo-secret.passwd",
        "foo:$apr1$OFG3Xybp$ckL0FHDAkoXYIlH9.cysT0", true⟩
      (by decide) (by decide)⟩

/-- C9: the denylist Parse returns, when the denylist-source-range key is
absent (the distinguished missing signal from the extraction boundary), a
present SourceRange holding the default backend denylist source range sorted
lexicographically, with no error; and on every return path, for every
extraction outcome and every behaviour of the IP parsing boundary, the
returned SourceRange is present and its CIDR list is sorted. -/
theorem c9_ipdenylist_parse (defaultDeny : List String) (getAnn : IpDenylist.AnnResult)
    (pn : List String → IpDenylist.IPNetsResult) :
    IpDenylist.Parse defaultDeny .missingAnns pn =
      (some ⟨sortStrings defaultDeny⟩, none) ∧
    (sortStrings defaultDeny).Perm defaultDeny ∧
    (∃ l, (IpDenylist.Parse defaultDeny getAnn pn).1 = some ⟨l⟩ ∧ List.Sorted strLe l) := by
  refine ⟨rfl, sortStrings_perm defaultDeny, ?_⟩
  cases getAnn with
  | missingAnns => exact ⟨sortStrings defaultDeny, rfl, sortStrings_sorted _⟩
  | otherErr e => exact ⟨sortStrings defaultDeny, rfl, sortStrings_sorted _⟩
  | ok val =>
    unfold IpDenylist.Parse
    by_cases hc :
      ((pn (val.splitOn ",")).err.isSome && (pn (val.splitOn ",")).ips.isEmpty) = true
    · exact ⟨sortStrings defaultDeny, by simp [hc], sortStrings_sorted _⟩
    · exact ⟨sortStrings ((pn (val.splitOn ",")).ipnets ++ (pn (val.splitOn ",")).ips),
        by simp [hc], sortStrings_sorted _⟩

/-- Concrete two-cell heap holding the same CIDR set in two orders. -/
def testHeap : Nat → IpDenylist.SourceRange := fun n =>
  if n = 0 then ⟨["10.0.0.0/8", "1.1.1.1"]⟩ else ⟨["1.1.1.1", "10.0.0.0/8"]⟩

/-- C10: Equal on SourceRange pointers is true on two present pointers iff
their CIDR lists hold the same elements irrespective of order; it is true on
a pointer compared with itself, nil included; and it is false whenever
exactly one side is nil. -/
theorem c10_source_range_equal (heap : Nat → IpDenylist.SourceRange) (p1 p2 : Option Nat) :
    (∀ a1 a2, p1 = some a1 → p2 = some a2 →
      (IpDenylist.Equal heap p1 p2 = true ↔ (heap a1).CIDR.Perm (heap a2).CIDR)) ∧
    IpDenylist.Equal heap p1 p1 = true ∧
    (∀ a, IpDenylist.Equal heap (some a) none = false ∧
      IpDenylist.Equal heap none (some a) = false) := by
  refine ⟨?_, ?_, ?_⟩
  · rintro a1 a2 rfl rfl
    unfold IpDenylist.Equal
    by_cases h : (some a1 : Option Nat) = some a2
    · rw [if_pos h]
      cases Option.some.inj h
      simp [List.Perm.refl]
    · rw [if_neg h]
      show IpDenylist.StringElementsMatch (heap a1).CIDR (heap a2).CIDR = true ↔ _
      unfold IpDenylist.StringElementsMatch
      exact decide_eq_true_iff
  · unfold IpDenylist.Equal
    rw [if_pos rfl]
  · intro a
    constructor
    · unfold IpDenylist.Equal
      rw [if_neg (by simp)]
    · unfold IpDenylist.Equal
      rw [if_neg (by simp)]

/-- C10, witness: over the concrete heap, distinct pointers to the same CIDR
set in different orders compare equal, a pointer equals itself, and nil on
one side only compares unequal. -/
theorem c10_source_range_equal_witness :
    ((IpDenylist.Equal testHeap (some 0) (some 1) = true ↔
      (testHeap 0).CIDR.Perm (testHeap 1).CIDR) ∧
    IpDenylist.Equal testHeap (some 0) (some 0) = true ∧
    (IpDenylist.Equal testHeap (some 0) none = false ∧
      IpDenylist.Equal testHeap none (some 0) = false)) :=
  ⟨(c10_source_range_equal testHeap (some 0) (some 1)).1 0 1 rfl rfl,
    (c10_source_range_equal testHeap (some 0) (some 0)).2.1,
    (c10_source_range_equal testHeap none none).2.2 0⟩

end HelmSpec
